import Mathlib

/-!
Shallow embedding of the core logic of the fantasy-railway running-time
simulator (src/core_logic.py, with the relevant duplicated definitions in
src/app.py), together with theorems settling the frozen claims about it.

Python floating-point arithmetic is idealised as real arithmetic (ℝ);
`math.sqrt` becomes `Real.sqrt` (the Python version raises on negative
input, which never occurs on the inputs the claims quantify over),
`math.radians`/`math.sin`/`math.cos` become their real counterparts.
Python lists become Lean lists; in-place mutation is made explicit by
returning the updated list.
-/

/-- `math.radians`: degrees to radians. -/
noncomputable def radians (x : ℝ) : ℝ := x * Real.pi / 180

/-- `hubeny_distance(lat1, lon1, lat2, lon2)` from src/core_logic.py lines 11-20:
ellipsoidal point-to-point distance (Hubeny formula), metres. -/
noncomputable def hubeny_distance (lat1 lon1 lat2 lon2 : ℝ) : ℝ :=
  let a : ℝ := 6378137.000
  let b : ℝ := 6356752.314
  let e2 : ℝ := (a ^ 2 - b ^ 2) / a ^ 2
  let rad_lat1 := radians lat1
  let rad_lon1 := radians lon1
  let rad_lat2 := radians lat2
  let rad_lon2 := radians lon2
  let avg_lat := (rad_lat1 + rad_lat2) / 2.0
  let d_lat := rad_lat1 - rad_lat2
  let d_lon := rad_lon1 - rad_lon2
  let W := Real.sqrt (1 - e2 * (Real.sin avg_lat) ^ 2)
  let M := a * (1 - e2) / W ^ 3
  let N := a / W
  Real.sqrt ((d_lat * M) ^ 2 + (d_lon * N * Real.cos avg_lat) ^ 2)

/-- `calculate_radius(p1, p2, p3)` from src/core_logic.py lines 22-34
(identical copy in src/app.py lines 86-98): circumradius of the triangle
spanned by three consecutive points via Heron's formula.  The source also
computes unused locals `d12` and `d23`; they have no effect and are omitted.
Degenerate triangles (Heron value `val ≤ 0`, or area `< 0.01`) yield the
sentinel 9999.0; otherwise the circumradius is capped at 6000.0. -/
noncomputable def calculate_radius (p1 p2 p3 : ℝ × ℝ) : ℝ :=
  let a := hubeny_distance p1.1 p1.2 p2.1 p2.2
  let b := hubeny_distance p2.1 p2.2 p3.1 p3.2
  let c := hubeny_distance p3.1 p3.2 p1.1 p1.2
  let s := (a + b + c) / 2
  let val := s * (s - a) * (s - b) * (s - c)
  if val ≤ 0 then 9999.0
  else
    let area := Real.sqrt val
    if area < 0.01 then 9999.0
    else min (a * b * c / (4 * area)) 6000.0

/-- The Heron value `val = s(s-a)(s-b)(s-c)` computed inside `calculate_radius`. -/
noncomputable def heron_val (p1 p2 p3 : ℝ × ℝ) : ℝ :=
  let a := hubeny_distance p1.1 p1.2 p2.1 p2.2
  let b := hubeny_distance p2.1 p2.2 p3.1 p3.2
  let c := hubeny_distance p3.1 p3.2 p1.1 p1.2
  let s := (a + b + c) / 2
  s * (s - a) * (s - b) * (s - c)

lemma hubeny_nonneg (lat1 lon1 lat2 lon2 : ℝ) :
    0 ≤ hubeny_distance lat1 lon1 lat2 lon2 := Real.sqrt_nonneg _

lemma hubeny_self (lat lon : ℝ) : hubeny_distance lat lon lat lon = 0 := by
  simp [hubeny_distance]

/-- On the equator, the Hubeny distance reduces to arc length along the
equatorial circle: `|radians lon1 - radians lon2| * 6378137`. -/
lemma hubeny_equator (lon1 lon2 : ℝ) :
    hubeny_distance 0 lon1 0 lon2 = |radians lon1 - radians lon2| * 6378137 := by
  have h0 : radians 0 = 0 := by simp [radians]
  rw [hubeny_distance]
  simp only [h0]
  rw [show ((0:ℝ) + 0) / 2.0 = 0 by norm_num]
  rw [Real.sin_zero, Real.cos_zero]
  rw [show (1 : ℝ) - (6378137.000 ^ 2 - 6356752.314 ^ 2) / 6378137.000 ^ 2 * 0 ^ 2 = 1 by ring]
  rw [Real.sqrt_one]
  rw [show ((0:ℝ) - 0) * (6378137.000 * (1 - (6378137.000 ^ 2 - 6356752.314 ^ 2) / 6378137.000 ^ 2) / 1 ^ 3) = 0 by ring]
  rw [show ((radians lon1 - radians lon2) * (6378137.000 / 1) * 1) ^ 2 = ((radians lon1 - radians lon2) * 6378137) ^ 2 by ring]
  rw [show (0:ℝ) ^ 2 + ((radians lon1 - radians lon2) * 6378137) ^ 2 = ((radians lon1 - radians lon2) * 6378137) ^ 2 by ring]
  rw [Real.sqrt_sq_eq_abs, abs_mul]
  norm_num

lemma heron_val_same_point (p : ℝ × ℝ) : heron_val p p p = 0 := by
  simp [heron_val, hubeny_self]

/-- `calculate_radius` unfolded through `heron_val`. -/
lemma calculate_radius_eq (p1 p2 p3 : ℝ × ℝ) :
    calculate_radius p1 p2 p3 =
      if heron_val p1 p2 p3 ≤ 0 then 9999.0
      else if Real.sqrt (heron_val p1 p2 p3) < 0.01 then 9999.0
      else
        min (hubeny_distance p1.1 p1.2 p2.1 p2.2 * hubeny_distance p2.1 p2.2 p3.1 p3.2 *
              hubeny_distance p3.1 p3.2 p1.1 p1.2 / (4 * Real.sqrt (heron_val p1 p2 p3)))
            6000.0 := by
  rfl

/-- C1 counterexample: at the fully degenerate triple (0,0),(0,0),(0,0),
`calculate_radius` returns 9999.0, which is not the claimed cap 6000 and is
not ≤ 6000. -/
theorem calculate_radius_degenerate_counterexample :
    calculate_radius ((0:ℝ), (0:ℝ)) (0, 0) (0, 0) = 9999.0 ∧
    ¬ calculate_radius ((0:ℝ), (0:ℝ)) (0, 0) (0, 0) ≤ 6000 := by
  have h : calculate_radius ((0:ℝ), (0:ℝ)) (0, 0) (0, 0) = 9999.0 := by
    rw [calculate_radius_eq, if_pos (le_of_eq (heron_val_same_point _))]
  refine ⟨h, ?_⟩
  rw [h]
  norm_num

/-- C1 (amended): on every degenerate or near-degenerate triple (Heron value
non-positive, or area below 0.01) `calculate_radius` returns the sentinel
9999.0 — not the 6000 m cap; it never returns a value below 0, every
returned value is at most 9999.0, and on non-degenerate triples the
returned radius is capped at 6000 m. -/
theorem calculate_radius_degenerate_amended (p1 p2 p3 : ℝ × ℝ) :
    0 ≤ calculate_radius p1 p2 p3 ∧
    calculate_radius p1 p2 p3 ≤ 9999.0 ∧
    ((heron_val p1 p2 p3 ≤ 0 ∨ Real.sqrt (heron_val p1 p2 p3) < 0.01) →
      calculate_radius p1 p2 p3 = 9999.0) ∧
    (¬ heron_val p1 p2 p3 ≤ 0 → ¬ Real.sqrt (heron_val p1 p2 p3) < 0.01 →
      calculate_radius p1 p2 p3 ≤ 6000.0) := by
  rw [calculate_radius_eq]
  split_ifs with h1 h2
  · exact ⟨by norm_num, by norm_num, fun _ => rfl, fun h => absurd h1 h⟩
  · exact ⟨by norm_num, by norm_num, fun _ => rfl, fun _ h => absurd h2 h⟩
  · refine ⟨?_, ?_, ?_, ?_⟩
    · refine le_min ?_ (by norm_num)
      apply div_nonneg
      · exact mul_nonneg (mul_nonneg (hubeny_nonneg _ _ _ _) (hubeny_nonneg _ _ _ _))
          (hubeny_nonneg _ _ _ _)
      · positivity
    · exact le_trans (min_le_right _ _) (by norm_num)
    · rintro (h | h)
      · exact absurd h h1
      · exact absurd h h2
    · intro _ _
      exact min_le_right _ _

/-- C1 witness: the amended theorem applied at the concrete degenerate
triple (0,0),(0,0),(0,0), whose Heron value is 0. -/
theorem calculate_radius_degenerate_amended_witness :
    calculate_radius ((0:ℝ), (0:ℝ)) (0, 0) (0, 0) = 9999.0 :=
  (calculate_radius_degenerate_amended ((0:ℝ), (0:ℝ)) (0, 0) (0, 0)).2.2.1
    (Or.inl (le_of_eq (heron_val_same_point _)))

/-! ## Track resampling (`resample_and_analyze`, src/core_logic.py lines 36-60) -/

/-- One element of the sampled track: the dicts
`{'dist': …, 'limit': …, 'pattern': …}` built by `resample_and_analyze`. -/
structure Sample where
  dist : ℝ
  limit : ℝ
  pattern : ℝ

/-- Default sample used to totalise Python list indexing in statements. -/
def sample0 : Sample := ⟨0, 0, 0⟩

/-- A vehicle spec record (the fields of the `VEHICLE_DB` entries in
src/app.py that the core logic reads). -/
structure Spec where
  max_speed : ℝ
  acc : ℝ
  dec : ℝ
  curve_factor : ℝ

/-- Consecutive-pair Hubeny distances of a polyline (the `d` values summed
into `cum_dist` in the source). -/
noncomputable def pairwise_dists : List (ℝ × ℝ) → List ℝ
  | p :: q :: rest => hubeny_distance p.1 p.2 q.1 q.2 :: pairwise_dists (q :: rest)
  | _ => []

/-- `cum_dist`: cumulative distance along the polyline; starts at 0.0. -/
noncomputable def cum_dist (points : List (ℝ × ℝ)) : List ℝ :=
  List.scanl (· + ·) 0 (pairwise_dists points)

/-- `total = cum_dist[-1]`: total length of the polyline. -/
noncomputable def total_length (points : List (ℝ × ℝ)) : ℝ :=
  (cum_dist points).getLastD 0

/-- Model of `np.arange(0, stop, step)` for `stop, step > 0`: the values
`0, step, 2*step, …` strictly below `stop`; its length is `⌈stop/step⌉`. -/
noncomputable def arange (stop step : ℝ) : List ℝ :=
  (List.range ⌈stop / step⌉₊).map (fun (k : ℕ) => (k : ℝ) * step)

/-- Model of `np.interp(x, xp, fp)` at a single query point `x`:
piecewise-linear interpolation with constant extrapolation at the ends
(`xp` is assumed increasing, as the cumulative distances are). -/
noncomputable def interp1 (x : ℝ) : List ℝ → List ℝ → ℝ
  | x0 :: x1 :: xs, f0 :: f1 :: fs =>
      if x ≤ x0 then f0
      else if x ≤ x1 then f0 + (f1 - f0) * (x - x0) / (x1 - x0)
      else interp1 x (x1 :: xs) (f1 :: fs)
  | [x0], [f0] => if x ≤ x0 then f0 else f0
  | _, _ => 0

/-- The sample distances `new_dists = np.arange(0, total, interval)`. -/
noncomputable def new_dists (points : List (ℝ × ℝ)) (interval : ℝ) : List ℝ :=
  arange (total_length points) interval

/-- `lats = np.interp(new_dists, cum_dist, [p[0] for p in points])`. -/
noncomputable def resample_lats (points : List (ℝ × ℝ)) (interval : ℝ) : List ℝ :=
  (new_dists points interval).map (fun d => interp1 d (cum_dist points) (points.map Prod.fst))

/-- `lons = np.interp(new_dists, cum_dist, [p[1] for p in points])`. -/
noncomputable def resample_lons (points : List (ℝ × ℝ)) (interval : ℝ) : List ℝ :=
  (new_dists points interval).map (fun d => interp1 d (cum_dist points) (points.map Prod.snd))

/-- The curvature radius assigned to sample `i` in the loop body of
`resample_and_analyze`: the sentinel 9999.0 inside the window of `w`
samples at each end (`i < w or i >= len(new_dists) - w`), otherwise the
three-point circumradius over the `±w` neighbours.  Natural-number
subtraction `n - w` agrees with the Python `int` test on the index range
`0 ≤ i`: when `n ≤ w` both make every sample an edge sample. -/
noncomputable def sample_R (lats lons : List ℝ) (n w i : ℕ) : ℝ :=
  if i < w ∨ n - w ≤ i then 9999.0
  else calculate_radius (lats.getD (i - w) 0, lons.getD (i - w) 0)
        (lats.getD i 0, lons.getD i 0)
        (lats.getD (i + w) 0, lons.getD (i + w) 0)

/-- The speed ceiling derived from a radius:
`limit = max(25.0, min(spec['max_speed'], spec['curve_factor'] * sqrt(R)))`. -/
noncomputable def sample_limit (spec : Spec) (R : ℝ) : ℝ :=
  max 25.0 (min spec.max_speed (spec.curve_factor * Real.sqrt R))

/-- The `track` list built by the final loop of `resample_and_analyze`
(window constant `w = 3`). -/
noncomputable def build_track (nd lats lons : List ℝ) (spec : Spec) : List Sample :=
  (List.range nd.length).map (fun i =>
    { dist := nd.getD i 0,
      limit := sample_limit spec (sample_R lats lons nd.length 3 i),
      pattern := 0.0 })

/-- `resample_and_analyze(points, spec, interval)` from src/core_logic.py
lines 36-60: empty output for fewer than two points or zero total length;
otherwise the resampled track with per-sample curvature speed ceilings. -/
noncomputable def resample_and_analyze (points : List (ℝ × ℝ)) (spec : Spec)
    (interval : ℝ) : List Sample :=
  if points.length < 2 then []
  else if total_length points = 0 then []
  else build_track (new_dists points interval)
        (resample_lats points interval) (resample_lons points interval) spec

lemma build_track_length (nd lats lons : List ℝ) (spec : Spec) :
    (build_track nd lats lons spec).length = nd.length := by
  simp [build_track]

lemma build_track_getD (nd lats lons : List ℝ) (spec : Spec) {i : ℕ}
    (hi : i < nd.length) :
    (build_track nd lats lons spec).getD i sample0 =
      { dist := nd.getD i 0,
        limit := sample_limit spec (sample_R lats lons nd.length 3 i),
        pattern := 0.0 } := by
  unfold build_track
  rw [List.getD_eq_getElem?_getD]
  rw [List.getElem?_map]
  rw [List.getElem?_range hi]
  rfl

lemma arange_length (stop step : ℝ) : (arange stop step).length = ⌈stop / step⌉₊ := by
  rw [arange, List.length_map, List.length_range]

lemma arange_getD (stop step : ℝ) {i : ℕ} (hi : i < ⌈stop / step⌉₊) :
    (arange stop step).getD i 0 = (i : ℝ) * step := by
  unfold arange
  rw [List.getD_eq_getElem?_getD, List.getElem?_map, List.getElem?_range hi]
  rfl

lemma getLastD_eq_getD {α : Type} (l : List α) (d : α) :
    l.getLastD d = l.getD (l.length - 1) d := by
  rw [List.getLastD_eq_getLast?, List.getLast?_eq_getElem?, List.getD_eq_getElem?_getD]

lemma resample_eq (points : List (ℝ × ℝ)) (spec : Spec) (interval : ℝ)
    (h2 : 2 ≤ points.length) (hT : total_length points ≠ 0) :
    resample_and_analyze points spec interval =
      build_track (new_dists points interval) (resample_lats points interval)
        (resample_lons points interval) spec := by
  rw [resample_and_analyze, if_neg (by omega), if_neg hT]

/-- C10: for every polyline of at least two points with positive total
length `L` and positive resampling interval, the output samples' distances
are exactly `0, interval, 2·interval, …`, strictly increasing, the last
sample's distance is strictly below `L`, and the shortfall (the undercount
of the reported leg distance against the stitched polyline's true length)
is at most one interval. -/
theorem resample_dist_grid (points : List (ℝ × ℝ)) (spec : Spec) (interval : ℝ)
    (h2 : 2 ≤ points.length) (hT : 0 < total_length points) (hI : 0 < interval) :
    resample_and_analyze points spec interval ≠ [] ∧
    (∀ i, i < (resample_and_analyze points spec interval).length →
      ((resample_and_analyze points spec interval).getD i sample0).dist = (i : ℝ) * interval) ∧
    (∀ i, i + 1 < (resample_and_analyze points spec interval).length →
      ((resample_and_analyze points spec interval).getD i sample0).dist <
        ((resample_and_analyze points spec interval).getD (i + 1) sample0).dist) ∧
    ((resample_and_analyze points spec interval).getLastD sample0).dist < total_length points ∧
    total_length points - ((resample_and_analyze points spec interval).getLastD sample0).dist
      ≤ interval := by
  have hT0 : total_length points ≠ 0 := ne_of_gt hT
  rw [resample_eq points spec interval h2 hT0]
  have hndlen : (new_dists points interval).length = ⌈total_length points / interval⌉₊ :=
    arange_length _ _
  have hlen : (build_track (new_dists points interval) (resample_lats points interval)
      (resample_lons points interval) spec).length = (new_dists points interval).length :=
    build_track_length _ _ _ _
  have hn1 : 1 ≤ (new_dists points interval).length := by
    rw [hndlen]
    exact Nat.one_le_iff_ne_zero.mpr (Nat.pos_iff_ne_zero.mp
      (Nat.ceil_pos.mpr (div_pos hT hI)))
  have hdist : ∀ i, i < (new_dists points interval).length →
      ((build_track (new_dists points interval) (resample_lats points interval)
        (resample_lons points interval) spec).getD i sample0).dist = (i : ℝ) * interval := by
    intro i hi
    rw [build_track_getD _ _ _ _ hi]
    exact arange_getD _ _ (hndlen ▸ hi)
  have hlast : ((build_track (new_dists points interval) (resample_lats points interval)
      (resample_lons points interval) spec).getLastD sample0).dist =
      (((new_dists points interval).length - 1 : ℕ) : ℝ) * interval := by
    rw [getLastD_eq_getD, hlen]
    exact hdist _ (by omega)
  have hceil_lt : ((((new_dists points interval).length - 1 : ℕ)) : ℝ) * interval
      < total_length points := by
    have h1 : ((new_dists points interval).length - 1 : ℕ) <
        ⌈total_length points / interval⌉₊ := by omega
    have h2 : ((((new_dists points interval).length - 1 : ℕ)) : ℝ) <
        total_length points / interval := Nat.lt_ceil.mp h1
    exact (lt_div_iff₀ hI).mp h2
  have hceil_le : total_length points ≤
      (((new_dists points interval).length : ℕ) : ℝ) * interval := by
    have h1 : total_length points / interval ≤
        ((⌈total_length points / interval⌉₊ : ℕ) : ℝ) := Nat.le_ceil _
    rw [hndlen]
    exact (div_le_iff₀ hI).mp h1
  refine ⟨?_, ?_, ?_, ?_, ?_⟩
  · intro h
    have hc : (build_track (new_dists points interval) (resample_lats points interval)
        (resample_lons points interval) spec).length = 0 := by rw [h]; rfl
    rw [hlen] at hc
    omega
  · intro i hi
    exact hdist i (hlen ▸ hi)
  · intro i hi
    rw [hlen] at hi
    rw [hdist i (by omega), hdist (i + 1) hi]
    have : ((i : ℝ)) < ((i : ℝ)) + 1 := by linarith
    calc (i : ℝ) * interval < ((i : ℝ) + 1) * interval := by nlinarith
      _ = (((i + 1 : ℕ)) : ℝ) * interval := by push_cast; ring
  · rw [hlast]
    exact hceil_lt
  · rw [hlast]
    have hcast : ((((new_dists points interval).length - 1 : ℕ)) : ℝ) =
        (((new_dists points interval).length : ℕ) : ℝ) - 1 := by
      have := hn1
      push_cast [Nat.cast_sub this]
      ring
    rw [hcast]
    have := hceil_le
    ring_nf
    ring_nf at this
    nlinarith

/-! ## A concrete equatorial test polyline -/

/-- Two points on the equator 0.001 degrees of longitude apart
(about 111 m); used to instantiate the sampler claims. -/
noncomputable def pts0 : List (ℝ × ℝ) := [(0, 0), (0, 0.001)]

/-- A vehicle spec with `curve_factor = 1` and `max_speed = 200`;
`1 * sqrt 9999 < 200`, so the 9999-sentinel caps edge samples below
`max_speed` for it. -/
noncomputable def testSpec : Spec := ⟨200, 3, 4, 1⟩

/-- The standard commuter-car spec from `VEHICLE_DB` in src/app.py
(`max_speed 110, acc 3.0, dec 4.0, curve_factor 4.2`). -/
noncomputable def specDB : Spec := ⟨110, 3, 4, 4.2⟩

lemma total_length_pts0 : total_length pts0 = 0.001 * Real.pi / 180 * 6378137 := by
  have h1 : pairwise_dists pts0 = [hubeny_distance 0 0 0 0.001] := by
    rw [pts0]
    rfl
  have h2 : cum_dist pts0 = [0, 0 + hubeny_distance 0 0 0 0.001] := by
    rw [cum_dist, h1]
    rfl
  have h3 : hubeny_distance 0 0 0 0.001 = |radians 0 - radians 0.001| * 6378137 :=
    hubeny_equator 0 0.001
  have h4 : radians 0 = 0 := by simp [radians]
  have h5 : radians 0.001 = 0.001 * Real.pi / 180 := rfl
  have h6 : |radians 0 - radians 0.001| = 0.001 * Real.pi / 180 := by
    rw [h4, h5, zero_sub, abs_neg, abs_of_nonneg (by positivity)]
  have h8 : total_length pts0 = 0 + hubeny_distance 0 0 0 0.001 := by
    rw [total_length, h2]
    rfl
  rw [h8, h3, h6]
  ring

lemma total_length_pts0_pos : 0 < total_length pts0 := by
  rw [total_length_pts0]
  positivity

lemma ceil_pts0 : ⌈total_length pts0 / 25⌉₊ = 5 := by
  rw [total_length_pts0]
  rw [Nat.ceil_eq_iff (by norm_num)]
  have hpi3 : (3:ℝ) < Real.pi := Real.pi_gt_three
  have hpi315 : Real.pi < 3.15 := Real.pi_lt_d2
  constructor
  · push_cast
    nlinarith
  · push_cast
    nlinarith

lemma new_dists_pts0_length : (new_dists pts0 25).length = 5 := by
  rw [new_dists, arange_length, ceil_pts0]

lemma sqrt9999_lt_200 : Real.sqrt 9999 < 200 := by
  rw [show (200:ℝ) = Real.sqrt (200 ^ 2) from (Real.sqrt_sq (by norm_num)).symm]
  exact Real.sqrt_lt_sqrt (by norm_num) (by norm_num)

lemma le_sqrt9999 : (99:ℝ) ≤ Real.sqrt 9999 := by
  rw [show (99:ℝ) = Real.sqrt (99 ^ 2) from (Real.sqrt_sq (by norm_num)).symm]
  exact Real.sqrt_le_sqrt (by norm_num)

/-- C5 counterexample: on the concrete equatorial polyline with a vehicle
whose `curve_factor` is 1 and `max_speed` is 200, the first sample — which
is inside the 3-sample end window and therefore, per the claim, should be
bounded by `max_speed` only — gets ceiling `sqrt 9999 ≈ 100`, strictly
below `max_speed`: the 9999-radius sentinel does impose a curvature-style
cap on edge samples. -/
theorem resample_edge_limit_counterexample :
    (resample_and_analyze pts0 testSpec 25).length = 5 ∧
    ((resample_and_analyze pts0 testSpec 25).getD 0 sample0).limit = Real.sqrt 9999 ∧
    ((resample_and_analyze pts0 testSpec 25).getD 0 sample0).limit < 200 ∧
    ((resample_and_analyze pts0 testSpec 25).getD 0 sample0).limit ≠ testSpec.max_speed := by
  have hr : resample_and_analyze pts0 testSpec 25 =
      build_track (new_dists pts0 25) (resample_lats pts0 25) (resample_lons pts0 25)
        testSpec :=
    resample_eq pts0 testSpec 25 (by norm_num [pts0]) (ne_of_gt total_length_pts0_pos)
  have hlen : (resample_and_analyze pts0 testSpec 25).length = 5 := by
    rw [hr, build_track_length, new_dists_pts0_length]
  have hhead : ((resample_and_analyze pts0 testSpec 25).getD 0 sample0).limit =
      Real.sqrt 9999 := by
    rw [hr, build_track_getD _ _ _ _ (by rw [new_dists_pts0_length]; omega)]
    show sample_limit testSpec (sample_R _ _ (new_dists pts0 25).length 3 0) = _
    rw [sample_R, if_pos (Or.inl (by omega))]
    rw [sample_limit]
    show max 25.0 (min testSpec.max_speed (testSpec.curve_factor * Real.sqrt 9999.0)) = _
    have h1 : testSpec.curve_factor * Real.sqrt 9999.0 = Real.sqrt 9999 := by
      show (1:ℝ) * Real.sqrt 9999.0 = Real.sqrt 9999
      norm_num
    rw [h1]
    have h2 : min testSpec.max_speed (Real.sqrt 9999) = Real.sqrt 9999 :=
      min_eq_right (le_of_lt (lt_of_lt_of_le sqrt9999_lt_200 (by norm_num [testSpec])))
    rw [h2]
    exact max_eq_right (le_trans (by norm_num) le_sqrt9999)
  refine ⟨hlen, hhead, ?_, ?_⟩
  · rw [hhead]
    exact sqrt9999_lt_200
  · rw [hhead]
    intro h
    have : (200:ℝ) ≤ Real.sqrt 9999 := le_of_eq (by rw [h]; rfl)
    exact absurd (lt_of_le_of_lt this sqrt9999_lt_200) (lt_irrefl _)

/-- C5 (amended): every sample's ceiling is `curve_factor * sqrt R` clamped
to `[25, max_speed]`, where `R` is the three-point circumradius over the
±3-sample window for interior samples and the sentinel 9999.0 for the
samples within 3 of either end; an end-window sample's ceiling equals
`max_speed` exactly (no curvature penalty) whenever
`max_speed ≤ curve_factor * sqrt 9999` and `25 ≤ max_speed` — true of every
vehicle in the catalog — but in general the sentinel caps it at
`curve_factor * sqrt 9999`. -/
theorem resample_limit_amended (points : List (ℝ × ℝ)) (spec : Spec) (interval : ℝ)
    (h2 : 2 ≤ points.length) (hT : total_length points ≠ 0) :
    ∀ i, i < (resample_and_analyze points spec interval).length →
      ((resample_and_analyze points spec interval).getD i sample0).limit =
        sample_limit spec (sample_R (resample_lats points interval)
          (resample_lons points interval) (new_dists points interval).length 3 i) ∧
      ((i < 3 ∨ (new_dists points interval).length - 3 ≤ i) →
        sample_R (resample_lats points interval) (resample_lons points interval)
          (new_dists points interval).length 3 i = 9999.0) ∧
      (spec.max_speed ≤ spec.curve_factor * Real.sqrt 9999.0 → 25 ≤ spec.max_speed →
        (i < 3 ∨ (new_dists points interval).length - 3 ≤ i) →
        ((resample_and_analyze points spec interval).getD i sample0).limit =
          spec.max_speed) := by
  intro i hi
  rw [resample_eq points spec interval h2 hT] at hi ⊢
  rw [build_track_length] at hi
  have hbase : ((build_track (new_dists points interval) (resample_lats points interval)
      (resample_lons points interval) spec).getD i sample0).limit =
      sample_limit spec (sample_R (resample_lats points interval)
        (resample_lons points interval) (new_dists points interval).length 3 i) := by
    rw [build_track_getD _ _ _ _ hi]
  refine ⟨hbase, ?_, ?_⟩
  · intro hedge
    rw [sample_R, if_pos hedge]
  · intro hms h25 hedge
    rw [hbase, sample_R, if_pos hedge, sample_limit]
    rw [min_eq_left hms]
    have h250 : (25.0 : ℝ) = 25 := by norm_num
    rw [h250]
    exact max_eq_right h25

/-- C5 witness: the amended theorem applied to the concrete equatorial
polyline and the catalog commuter-car spec (`curve_factor 4.2`,
`max_speed 110`): the first sample's ceiling is exactly 110. -/
theorem resample_limit_amended_witness :
    ((resample_and_analyze pts0 specDB 25).getD 0 sample0).limit = specDB.max_speed := by
  have hlen0 : 0 < (resample_and_analyze pts0 specDB 25).length := by
    rw [resample_eq pts0 specDB 25 (by norm_num [pts0]) (ne_of_gt total_length_pts0_pos)]
    rw [build_track_length, new_dists_pts0_length]
    omega
  refine ((resample_limit_amended pts0 specDB 25 (by norm_num [pts0])
      (ne_of_gt total_length_pts0_pos)) 0 hlen0).2.2 ?_ ?_ (Or.inl (by omega))
  · show (110:ℝ) ≤ 4.2 * Real.sqrt 9999.0
    have := le_sqrt9999
    nlinarith
  · show (25:ℝ) ≤ 110
    norm_num

/-- C10 witness: the distance-grid theorem applied to the concrete
equatorial polyline: the last sample's distance undercounts the true
polyline length. -/
theorem resample_dist_grid_witness :
    ((resample_and_analyze pts0 testSpec 25).getLastD sample0).dist < total_length pts0 :=
  (resample_dist_grid pts0 testSpec 25 (by norm_num [pts0]) total_length_pts0_pos
    (by norm_num)).2.2.2.1

/-! ## Braking planner and kinematic runner (`TrainSim`, src/core_logic.py lines 199-238) -/

/-- `TrainSim._calc_brake_pattern` (src/core_logic.py lines 208-214): the
backward pass over the sampled track.  The Python code mutates
`self.track` in place (`track[-1]['pattern'] = 0.0`, then for `i` from
`len-2` down to `0` sets `track[i]['pattern']` to
`min(sqrt((track[i+1]['pattern']/3.6)**2 + 2*max_dec*dd)*3.6, track[i]['limit'])`);
the recursion below computes the same list back-to-front.  On the empty
list the Python code raises IndexError; the embedding returns `[]` and the
claims are stated for non-empty tracks only. -/
noncomputable def calc_brake_pattern (max_dec : ℝ) : List Sample → List Sample
  | [] => []
  | [s] => [{ s with pattern := 0.0 }]
  | s0 :: s1 :: rest =>
    match calc_brake_pattern max_dec (s1 :: rest) with
    | [] => []
    | nxt :: tail =>
      let dd := nxt.dist - s0.dist
      let v_next := nxt.pattern / 3.6
      let v_allow := Real.sqrt (v_next ^ 2 + 2 * max_dec * dd) * 3.6
      { s0 with pattern := min v_allow s0.limit } :: nxt :: tail

/-- The `TrainSim` object after `__init__` (src/core_logic.py lines 200-206):
fields `track` (already rewritten by the braking pass), `spec`, `dt = 0.5`,
`max_acc = spec['acc']/3.6`, `max_dec = spec['dec']/3.6`. -/
structure TrainSim where
  track : List Sample
  spec : Spec
  dt : ℝ
  max_acc : ℝ
  max_dec : ℝ

/-- `TrainSim.__init__(track, spec)`: stores the spec-derived constants and
runs the braking pass over the caller's track. -/
noncomputable def TrainSim.init (track : List Sample) (spec : Spec) : TrainSim :=
  { track := calc_brake_pattern (spec.dec / 3.6) track
    spec := spec
    dt := 0.5
    max_acc := spec.acc / 3.6
    max_dec := spec.dec / 3.6 }

/-- The inner pointer-advance loop of `TrainSim.run`:
`while curr < len(track)-1 and track[curr+1]['dist'] < x: curr += 1`,
expressed with explicit fuel (`track.length` suffices). -/
noncomputable def advance_ptr (track : List Sample) (x : ℝ) : ℕ → ℕ → ℕ
  | 0, curr => curr
  | fuel + 1, curr =>
      if curr < track.length - 1 ∧ (track.getD (curr + 1) sample0).dist < x then
        advance_ptr track x fuel (curr + 1)
      else curr

/-- One iteration of the `while` body of `TrainSim.run` (src/core_logic.py
lines 220-236), mapping state `(t, x, v, curr)` to the next state: advance
the sample pointer, compare `v` against the pattern target, apply the
acceleration derating (`35/v` above 35 km/h, additionally `100/v` above
100 km/h) or the deceleration, floor the new speed at 0, then integrate
position and time (`dt = 0.5`). -/
noncomputable def run_step (track : List Sample) (max_acc max_dec : ℝ) :
    ℝ × ℝ × ℝ × ℕ → ℝ × ℝ × ℝ × ℕ
  | (t, x, v, curr) =>
    let curr2 := advance_ptr track x track.length curr
    let tgt := (track.getD curr2 sample0).pattern
    let v_ms := v / 3.6
    let v_ms2 :=
      if tgt < v then v_ms - max_dec * 0.5
      else if v < tgt then
        let ratio : ℝ := if 35 < v then 35 / v else 1.0
        let ratio2 : ℝ := if 100 < v then ratio * (100 / v) else ratio
        v_ms + max_acc * ratio2 * 0.5
      else v_ms
    let v_ms3 := if v_ms2 < 0 then 0 else v_ms2
    (t + 0.5, x + v_ms3 * 0.5, v_ms3 * 3.6, curr2)

/-- The `while x < total and t < 3600*10` loop of `TrainSim.run`, with
explicit fuel.  Because each iteration adds `dt = 0.5` to `t` and the guard
requires `t < 36000`, at most 72000 iterations can run; with fuel 72001 the
`none` (fuel exhausted) branch is unreachable, which is proved below.  The
early-exit break `x >= total - 2.0 and v < 1.0` returns the incremented
time, as the Python `break` falls through to `return t`. -/
noncomputable def run_loop (track : List Sample) (max_acc max_dec total : ℝ) :
    ℕ → ℝ × ℝ × ℝ × ℕ → Option ℝ
  | fuel, (t, x, v, curr) =>
    if x < total ∧ t < 3600 * 10 then
      match fuel with
      | 0 => none
      | fuel + 1 =>
        let s2 := run_step track max_acc max_dec (t, x, v, curr)
        if total - 2.0 ≤ s2.2.1 ∧ s2.2.2.1 < 1.0 then some s2.1
        else run_loop track max_acc max_dec total fuel s2
    else some t

/-- `TrainSim.run` (src/core_logic.py lines 216-238): runs the kinematic
loop from `(t, x, v, curr) = (0, 0, 0, 0)` against
`total = track[-1]['dist']` and returns the elapsed time.  The second
component is the track after the call — `run` only reads it. -/
noncomputable def TrainSim.run (sim : TrainSim) : Option ℝ × List Sample :=
  (run_loop sim.track sim.max_acc sim.max_dec ((sim.track.getLastD sample0).dist) 72001
    (0, 0, 0, 0), sim.track)

lemma getLastD_indep {α : Type} (l : List α) (hl : l ≠ []) (d1 d2 : α) :
    l.getLastD d1 = l.getLastD d2 := by
  rw [List.getLastD_eq_getLast?, List.getLastD_eq_getLast?]
  cases h : l.getLast? with
  | none => exact absurd (List.getLast?_eq_none_iff.mp h) hl
  | some a => rfl

lemma cbp_length (max_dec : ℝ) : ∀ l : List Sample,
    (calc_brake_pattern max_dec l).length = l.length
  | [] => rfl
  | [s] => rfl
  | s0 :: s1 :: rest => by
    have ih := cbp_length max_dec (s1 :: rest)
    rw [calc_brake_pattern]
    rcases h : calc_brake_pattern max_dec (s1 :: rest) with _ | ⟨nxt, tail⟩
    · rw [h] at ih
      simp at ih
    · rw [h] at ih
      dsimp only
      simp only [List.length_cons] at ih ⊢
      omega

lemma cbp_ne_nil (max_dec : ℝ) (l : List Sample) (hl : l ≠ []) :
    calc_brake_pattern max_dec l ≠ [] := by
  intro h
  have hlen := cbp_length max_dec l
  rw [h] at hlen
  cases l with
  | nil => exact hl rfl
  | cons a t => simp at hlen

lemma cbp_map_dist (max_dec : ℝ) : ∀ l : List Sample,
    (calc_brake_pattern max_dec l).map Sample.dist = l.map Sample.dist
  | [] => rfl
  | [s] => rfl
  | s0 :: s1 :: rest => by
    have ih := cbp_map_dist max_dec (s1 :: rest)
    rw [calc_brake_pattern]
    rcases h : calc_brake_pattern max_dec (s1 :: rest) with _ | ⟨nxt, tail⟩
    · exact absurd h (cbp_ne_nil max_dec _ (by simp))
    · rw [h] at ih
      dsimp only
      simp only [List.map_cons] at ih ⊢
      exact congrArg (List.cons s0.dist) ih

lemma cbp_map_limit (max_dec : ℝ) : ∀ l : List Sample,
    (calc_brake_pattern max_dec l).map Sample.limit = l.map Sample.limit
  | [] => rfl
  | [s] => rfl
  | s0 :: s1 :: rest => by
    have ih := cbp_map_limit max_dec (s1 :: rest)
    rw [calc_brake_pattern]
    rcases h : calc_brake_pattern max_dec (s1 :: rest) with _ | ⟨nxt, tail⟩
    · exact absurd h (cbp_ne_nil max_dec _ (by simp))
    · rw [h] at ih
      dsimp only
      simp only [List.map_cons] at ih ⊢
      exact congrArg (List.cons s0.limit) ih

lemma cbp_last_pattern (max_dec : ℝ) : ∀ l : List Sample, l ≠ [] →
    ((calc_brake_pattern max_dec l).getLastD sample0).pattern = 0
  | [], hl => absurd rfl hl
  | [s], _ => by
    show (({ s with pattern := 0.0 } : Sample)).pattern = 0
    norm_num
  | s0 :: s1 :: rest, _ => by
    have ih := cbp_last_pattern max_dec (s1 :: rest) (by simp)
    rw [calc_brake_pattern]
    rcases h : calc_brake_pattern max_dec (s1 :: rest) with _ | ⟨nxt, tail⟩
    · exact absurd h (cbp_ne_nil max_dec _ (by simp))
    · rw [h] at ih
      dsimp only
      have hcons : ∀ (a : Sample) (m : List Sample), m ≠ [] →
          ((a :: m).getLastD sample0) = m.getLastD sample0 := by
        intro a m hm
        rw [List.getLastD_cons]
        exact getLastD_indep m hm a sample0
      rw [hcons _ (nxt :: tail) (by simp)]
      exact ih

lemma cbp_pattern_le_limit (max_dec : ℝ) : ∀ l : List Sample,
    (∀ s ∈ l, 0 ≤ s.limit) → ∀ s ∈ calc_brake_pattern max_dec l, s.pattern ≤ s.limit
  | [], _ => by simp [calc_brake_pattern]
  | [s], hlim => by
    intro s2 hs2
    simp only [calc_brake_pattern, List.mem_singleton] at hs2
    subst hs2
    show (0.0 : ℝ) ≤ s.limit
    rw [show (0.0 : ℝ) = 0 by norm_num]
    exact hlim s (by simp)
  | s0 :: s1 :: rest, hlim => by
    have ih := cbp_pattern_le_limit max_dec (s1 :: rest)
      (fun s hs => hlim s (List.mem_cons_of_mem _ hs))
    intro s2 hs2
    rw [calc_brake_pattern] at hs2
    rcases h : calc_brake_pattern max_dec (s1 :: rest) with _ | ⟨nxt, tail⟩
    · exact absurd h (cbp_ne_nil max_dec _ (by simp))
    · rw [h] at hs2 ih
      dsimp only at hs2
      rcases List.mem_cons.mp hs2 with h1 | h2
      · subst h1
        exact min_le_right _ _
      · exact ih s2 h2

lemma cbp_recurrence (max_dec : ℝ) : ∀ l : List Sample, ∀ i : ℕ, i + 1 < l.length →
    ((calc_brake_pattern max_dec l).getD i sample0).pattern =
      min (Real.sqrt ((((calc_brake_pattern max_dec l).getD (i + 1) sample0).pattern / 3.6) ^ 2
            + 2 * max_dec * (((calc_brake_pattern max_dec l).getD (i + 1) sample0).dist
              - ((calc_brake_pattern max_dec l).getD i sample0).dist)) * 3.6)
          (((calc_brake_pattern max_dec l).getD i sample0).limit)
  | [], i, hi => by simp at hi
  | [s], i, hi => by simp at hi
  | s0 :: s1 :: rest, i, hi => by
    rw [calc_brake_pattern]
    rcases h : calc_brake_pattern max_dec (s1 :: rest) with _ | ⟨nxt, tail⟩
    · exact absurd h (cbp_ne_nil max_dec _ (by simp))
    · dsimp only
      cases i with
      | zero => simp
      | succ j =>
        have ih := cbp_recurrence max_dec (s1 :: rest) j (by simpa using hi)
        rw [h] at ih
        simpa [List.getD_cons_succ] using ih

lemma run_step_fst (track : List Sample) (ma md t x v : ℝ) (curr : ℕ) :
    (run_step track ma md (t, x, v, curr)).1 = t + 0.5 := rfl

lemma run_loop_terminates (track : List Sample) (ma md total : ℝ) :
    ∀ (fuel : ℕ) (t x v : ℝ) (curr : ℕ), 3600 * 10 ≤ t + 0.5 * fuel →
      ∃ r, run_loop track ma md total fuel (t, x, v, curr) = some r ∧
        t ≤ r ∧ r ≤ t + 0.5 * fuel := by
  intro fuel
  induction fuel with
  | zero =>
    intro t x v curr hcap
    push_cast at hcap
    rw [run_loop, if_neg]
    · exact ⟨t, rfl, le_refl t, by push_cast; linarith⟩
    · intro hc
      linarith [hc.2]
  | succ n ih =>
    intro t x v curr hcap
    push_cast at hcap
    have hn : (0 : ℝ) ≤ n := Nat.cast_nonneg n
    rw [run_loop]
    by_cases hg : x < total ∧ t < 3600 * 10
    · rw [if_pos hg]
      dsimp only
      by_cases he : total - 2.0 ≤ (run_step track ma md (t, x, v, curr)).2.1 ∧
          (run_step track ma md (t, x, v, curr)).2.2.1 < 1.0
      · rw [if_pos he]
        refine ⟨(run_step track ma md (t, x, v, curr)).1, rfl, ?_, ?_⟩
        · rw [run_step_fst]
          linarith
        · rw [run_step_fst]
          push_cast
          linarith
      · rw [if_neg he]
        obtain ⟨r, hr, h1, h2⟩ := ih (run_step track ma md (t, x, v, curr)).1
          (run_step track ma md (t, x, v, curr)).2.1
          (run_step track ma md (t, x, v, curr)).2.2.1
          (run_step track ma md (t, x, v, curr)).2.2.2
          (by rw [run_step_fst]; linarith)
        refine ⟨r, hr, ?_, ?_⟩
        · rw [run_step_fst] at h1
          linarith
        · rw [run_step_fst] at h2
          push_cast at h2 ⊢
          linarith
    · rw [if_neg hg]
      exact ⟨t, rfl, le_refl t, by push_cast; linarith⟩

/-- C3: for every non-empty sample sequence (with the non-negative speed
ceilings the sampler guarantees), the braking pass sets the terminal
sample's achievable (pattern) speed to exactly 0, keeps every sample's
achievable speed at or below its ceiling, and gives each non-terminal
sample the achievable speed
`min(ceiling, 3.6 * sqrt((v_next/3.6)^2 + 2*decel*Δd))` computed backward
from the next sample (the km/h↔m/s conversions written as in the source:
`decel` is `max_dec` in m/s², speeds are stored in km/h). -/
theorem brake_pattern_correct (max_dec : ℝ) (l : List Sample) (hne : l ≠ [])
    (hlim : ∀ s ∈ l, 0 ≤ s.limit) :
    ((calc_brake_pattern max_dec l).getLastD sample0).pattern = 0 ∧
    (∀ s ∈ calc_brake_pattern max_dec l, s.pattern ≤ s.limit) ∧
    (∀ i : ℕ, i + 1 < l.length →
      ((calc_brake_pattern max_dec l).getD i sample0).pattern =
        min (Real.sqrt ((((calc_brake_pattern max_dec l).getD (i + 1) sample0).pattern / 3.6) ^ 2
              + 2 * max_dec * (((calc_brake_pattern max_dec l).getD (i + 1) sample0).dist
                - ((calc_brake_pattern max_dec l).getD i sample0).dist)) * 3.6)
            (((calc_brake_pattern max_dec l).getD i sample0).limit)) :=
  ⟨cbp_last_pattern max_dec l hne, cbp_pattern_le_limit max_dec l hlim,
    fun i hi => cbp_recurrence max_dec l i hi⟩

/-- C3 witness: the braking-pass theorem applied to a concrete two-sample
track (limits 100 and 80 km/h, 25 m apart, deceleration 1 m/s²): the
terminal pattern speed is 0. -/
theorem brake_pattern_correct_witness :
    ((calc_brake_pattern 1 [(⟨0, 100, 0⟩ : Sample), ⟨25, 80, 0⟩]).getLastD sample0).pattern
      = 0 := by
  refine (brake_pattern_correct 1 [⟨0, 100, 0⟩, ⟨25, 80, 0⟩] (by simp) ?_).1
  intro s hs
  simp only [List.mem_cons, List.mem_singleton, List.not_mem_nil, or_false] at hs
  rcases hs with h | h
  · subst h
    show (0:ℝ) ≤ 100
    norm_num
  · subst h
    show (0:ℝ) ≤ 80
    norm_num

/-- C6: for every non-empty track and vehicle spec, `TrainSim.run`
terminates and returns elapsed simulated seconds: the loop (which stops
when the position reaches the track's total length, or within 2 m of the
end with velocity under 1 km/h, or at the 3600×10 s safety cap) always
yields `some r` with `0 ≤ r ≤ 36000 + 0.5` — the cap plus at most one
0.5 s step — rather than looping forever. -/
theorem trainsim_run_terminates (track : List Sample) (spec : Spec) (_hne : track ≠ []) :
    ∃ r, ((TrainSim.init track spec).run).1 = some r ∧ 0 ≤ r ∧ r ≤ 3600 * 10 + 0.5 := by
  obtain ⟨r, hr, h1, h2⟩ := run_loop_terminates ((TrainSim.init track spec).track)
    ((TrainSim.init track spec).max_acc) ((TrainSim.init track spec).max_dec)
    (((TrainSim.init track spec).track.getLastD sample0).dist) 72001 0 0 0 0
    (by norm_num)
  refine ⟨r, hr, h1, ?_⟩
  push_cast at h2
  linarith

/-- C6 witness: the runner-termination theorem applied to a concrete
one-sample track and the catalog commuter-car spec. -/
theorem trainsim_run_terminates_witness :
    ∃ r, ((TrainSim.init [(⟨0, 100, 0⟩ : Sample)] specDB).run).1 = some r ∧
      0 ≤ r ∧ r ≤ 3600 * 10 + 0.5 :=
  trainsim_run_terminates [⟨0, 100, 0⟩] specDB (by simp)

/-- C9: constructing a `TrainSim` rewrites the caller's sample list with
the braking pattern: the stored track is exactly
`calc_brake_pattern (spec.dec/3.6)` of the passed-in list — same length,
same `dist` and `limit` fields pointwise, terminal `pattern` set to 0 —
and `run` leaves the track unmodified (its returned track state equals
the stored track). -/
theorem trainsim_init_frame (track : List Sample) (spec : Spec) (hne : track ≠ []) :
    (TrainSim.init track spec).track = calc_brake_pattern (spec.dec / 3.6) track ∧
    (TrainSim.init track spec).track.length = track.length ∧
    (TrainSim.init track spec).track.map Sample.dist = track.map Sample.dist ∧
    (TrainSim.init track spec).track.map Sample.limit = track.map Sample.limit ∧
    ((TrainSim.init track spec).track.getLastD sample0).pattern = 0 ∧
    ((TrainSim.init track spec).run).2 = (TrainSim.init track spec).track :=
  ⟨rfl, cbp_length _ _, cbp_map_dist _ _, cbp_map_limit _ _, cbp_last_pattern _ _ hne, rfl⟩

/-- C9 witness: the frame theorem applied to a concrete one-sample track
whose initial `pattern` field is 7 — after construction the terminal
pattern is 0 (overwritten). -/
theorem trainsim_init_frame_witness :
    ((TrainSim.init [(⟨0, 50, 7⟩ : Sample)] testSpec).track.getLastD sample0).pattern = 0 :=
  (trainsim_init_frame [⟨0, 50, 7⟩] testSpec (by simp)).2.2.2.2.1

/-! ## Network construction (`build_network`, src/core_logic.py lines 65-152) -/

/-- `SAME_STATION_THRESHOLD` from src/app.py line 22 (the `config` module the
core imports it from is not part of src/; app.py fixes it at 1000.0 m). -/
noncomputable def SAME_STATION_THRESHOLD : ℝ := 1000.0

/-- One raw point of a line: latitude `p[0]`, longitude `p[1]`, the optional
marker `p[2]` (a station iff it equals the string `'s'`), and the optional
label `p[3]` (already passed through `str`). -/
structure RawPoint where
  lat : ℝ
  lon : ℝ
  kind : Option String
  label : Option String

/-- One line of the map data: `line.get('type')` (value 1 = planned/inactive,
skipped), `line.get('name')`, and the ordered point sequence. -/
structure RawLine where
  type : Option Nat
  name : Option String
  point : List RawPoint

/-- The parsed map structure: `map_data.get('line', [])`. -/
structure MapData where
  line : List RawLine

/-- One entry of `known_stations[raw_name]`: `{'id': …, 'coords': (lat, lon)}`. -/
structure StEntry where
  id : String
  coords : ℝ × ℝ

/-- The state threaded through the first pass of `build_network`:
`known_stations`, `station_id_map`, `station_coords`, `all_line_names`.
Python dicts are modelled as insertion-ordered association lists. -/
structure ResolveState where
  known_stations : List (String × List StEntry)
  station_id_map : List ((ℕ × ℕ) × String)
  station_coords : List (String × (ℝ × ℝ))
  all_line_names : List String

/-- Insertion-ordered dict update: replace in place if the key exists,
append otherwise (Python dict assignment semantics). -/
def assocSet {α β : Type} [DecidableEq α] : List (α × β) → α → β → List (α × β)
  | [], k, v => [(k, v)]
  | (k2, v2) :: rest, k, v =>
      if k2 = k then (k2, v) :: rest else (k2, v2) :: assocSet rest k v

/-- Dict lookup (first match). -/
def assocGet {α β : Type} [DecidableEq α] : List (α × β) → α → Option β
  | [], _ => none
  | (k2, v) :: rest, k => if k2 = k then some v else assocGet rest k

/-- Python's `str.strip()` truthiness test: the stripped string is
non-empty iff the string contains a non-whitespace character. -/
def strip_nonempty (s : String) : Bool :=
  s.toList.any (fun c => !c.isWhitespace)

/-- The raw station label of point `pt_idx` on line `line_idx`:
`str(p[3])` when present with non-empty strip, else the synthetic
placeholder `未設定駅(line_idx-pt_idx)`. -/
def raw_station_name (line_idx pt_idx : ℕ) (p : RawPoint) : String :=
  match p.label with
  | some l =>
      if strip_nonempty l then l
      else "未設定駅(" ++ toString line_idx ++ "-" ++ toString pt_idx ++ ")"
  | none => "未設定駅(" ++ toString line_idx ++ "-" ++ toString pt_idx ++ ")"

/-- The linear scan over `known_stations[raw_name]` accepting the first
entry within the proximity threshold (the `for entry … if dist < …: break`
loop, src/core_logic.py lines 95-99). -/
noncomputable def find_near (lat lon : ℝ) : List StEntry → Option String
  | [] => none
  | e :: rest =>
      if hubeny_distance lat lon e.coords.1 e.coords.2 < SAME_STATION_THRESHOLD then
        some e.id
      else find_near lat lon rest

/-- The `while unique_id in existing_ids` counter loop (lines 111-113),
trying `base 2`, `base 3`, …; `existing.length + 1` candidates always
suffice since they are pairwise distinct, so the fuel never runs out on
reachable inputs. -/
def mint_counter (base : String) (existing : List String) : ℕ → ℕ → String
  | 0, c => base ++ " " ++ toString c
  | fuel + 1, c =>
      if (base ++ " " ++ toString c) ∈ existing then
        mint_counter base existing fuel (c + 1)
      else base ++ " " ++ toString c

/-- Minting a disambiguated identity (lines 107-113): the label suffixed
with the line name, then a numeric counter on further collisions. -/
def minted_id (raw_name line_name : String) (existing : List String) : String :=
  let base := raw_name ++ " (" ++ line_name ++ ")"
  if base ∈ existing then mint_counter base existing (existing.length + 1) 2
  else base

/-- Station-identity resolution for a single point (first pass loop body,
src/core_logic.py lines 83-117).  `found_id` can never be the empty string
(labels are non-empty after the placeholder substitution), so the Python
truthiness test `if found_id:` is modelled by the `Option`. -/
noncomputable def resolve_point (line_idx pt_idx : ℕ) (line_name : String) (p : RawPoint)
    (st : ResolveState) : ResolveState :=
  if p.kind = some "s" then
    let raw_name := raw_station_name line_idx pt_idx p
    let entries := (assocGet st.known_stations raw_name).getD []
    match find_near p.lat p.lon entries with
    | some found_id =>
        { st with station_id_map := st.station_id_map ++ [((line_idx, pt_idx), found_id)] }
    | none =>
        let unique_id :=
          if entries.isEmpty then raw_name
          else minted_id raw_name line_name (entries.map StEntry.id)
        { known_stations := assocSet st.known_stations raw_name
            (entries ++ [⟨unique_id, (p.lat, p.lon)⟩])
          station_id_map := st.station_id_map ++ [((line_idx, pt_idx), unique_id)]
          station_coords := st.station_coords ++ [(unique_id, (p.lat, p.lon))]
          all_line_names := st.all_line_names }
  else st

/-- The inner `for pt_idx, p in enumerate(raw_points)` loop of the first
pass, carrying the running point index. -/
noncomputable def resolve_points (line_idx : ℕ) (line_name : String) :
    ℕ → List RawPoint → ResolveState → ResolveState
  | _, [], st => st
  | pt_idx, p :: rest, st =>
      resolve_points line_idx line_name (pt_idx + 1) rest
        (resolve_point line_idx pt_idx line_name p st)

/-- First-pass handling of one line (src/core_logic.py lines 76-117): skip
planned lines (`type == 1`), register the line name (default
`路線{line_idx}`) in first-seen order, then resolve its station points. -/
noncomputable def resolve_line (line_idx : ℕ) (line : RawLine) (st : ResolveState) :
    ResolveState :=
  if line.type = some 1 then st
  else
    let line_name := line.name.getD ("路線" ++ toString line_idx)
    let st1 := { st with all_line_names :=
        if line_name ∈ st.all_line_names then st.all_line_names
        else st.all_line_names ++ [line_name] }
    resolve_points line_idx line_name 0 line.point st1

/-- The outer `for line_idx, line in enumerate(lines)` loop of the first pass. -/
noncomputable def resolve_lines : ℕ → List RawLine → ResolveState → ResolveState
  | _, [], st => st
  | line_idx, l :: rest, st =>
      resolve_lines (line_idx + 1) rest (resolve_line line_idx l st)

/-- The complete first pass of `build_network` from the empty state. -/
noncomputable def resolve_all (lines : List RawLine) : ResolveState :=
  resolve_lines 0 lines ⟨[], [], [], []⟩

/-- One edge of the `nx.MultiGraph` built by `build_network`: endpoints,
the multigraph key (`key=line_name` in `G.add_edge`), weight, and the
`line_name` data attribute. -/
structure GEdge where
  u : String
  v : String
  key : String
  weight : ℝ
  line_name : String

/-- One record of `edge_details[(u,v) sorted][line_name]`. -/
structure EdgeInfo where
  points : List (ℝ × ℝ)
  weight : ℝ
  line_name : String

/-- Whether edge `e` joins the unordered pair `{u, v}` under multigraph key `k`. -/
def edge_same_pair_key (e : GEdge) (u v k : String) : Bool :=
  (((e.u == u) && (e.v == v)) || ((e.u == v) && (e.v == u))) && (e.key == k)

/-- `G.add_edge(u, v, key=line_name, …)` on an undirected multigraph:
replace the data of an existing `(pair, key)` edge, else append. -/
noncomputable def add_edge : List GEdge → GEdge → List GEdge
  | [], e => [e]
  | f :: rest, e =>
      if edge_same_pair_key f e.u e.v e.key then
        { f with weight := e.weight, line_name := e.line_name } :: rest
      else f :: add_edge rest e

/-- `tuple(sorted((u, v)))`. -/
def sorted_pair (u v : String) : String × String :=
  if u < v then (u, v) else (v, u)

/-- `{'id': st_id, 'raw_idx': i}` from the second-pass station collection. -/
structure LineStation where
  id : String
  raw_idx : ℕ

/-- The `for i, p in enumerate(raw_points): if (line_idx, i) in
station_id_map` collection of a line's stations (second pass, lines 125-128). -/
def line_stations_from (line_idx : ℕ) (idmap : List ((ℕ × ℕ) × String)) :
    ℕ → List RawPoint → List LineStation
  | _, [] => []
  | i, _ :: rest =>
      match assocGet idmap (line_idx, i) with
      | some sid => ⟨sid, i⟩ :: line_stations_from line_idx idmap (i + 1) rest
      | none => line_stations_from line_idx idmap (i + 1) rest

/-- Adjacent pairs of a list (the `for i in range(len(line_stations)-1)` loop). -/
def adjacent_pairs {α : Type} : List α → List (α × α)
  | a :: b :: rest => (a, b) :: adjacent_pairs (b :: rest)
  | _ => []

/-- The state threaded through the second pass of `build_network`. -/
structure EdgeState where
  G : List GEdge
  edge_details : List ((String × String) × List (String × EdgeInfo))
  line_stations_dict : List (String × List String)

/-- Second-pass body for one adjacent station pair (src/core_logic.py lines
132-150): slice the raw coordinates from `st1.raw_idx` to `st2.raw_idx`
inclusive, sum pairwise Hubeny distances, add the multigraph edge keyed by
the line name, and record the polyline in `edge_details` under the sorted
station pair. -/
noncomputable def add_segment (line : RawLine) (line_name : String)
    (st1 st2 : LineStation) (es : EdgeState) : EdgeState :=
  let segment_points :=
    ((line.point.drop st1.raw_idx).take (st2.raw_idx - st1.raw_idx + 1)).map
      (fun p => (p.lat, p.lon))
  let dist := (pairwise_dists segment_points).sum
  let key := sorted_pair st1.id st2.id
  let inner := (assocGet es.edge_details key).getD []
  { G := add_edge es.G ⟨st1.id, st2.id, line_name, dist, line_name⟩
    edge_details := assocSet es.edge_details key
      (assocSet inner line_name ⟨segment_points, dist, line_name⟩)
    line_stations_dict := es.line_stations_dict }

/-- Second-pass handling of one line (lines 119-150).  Note the source's
default line name here is `不明`, not the `路線{line_idx}` used in the
first pass. -/
noncomputable def edges_of_line (line_idx : ℕ) (line : RawLine)
    (idmap : List ((ℕ × ℕ) × String)) (es : EdgeState) : EdgeState :=
  if line.type = some 1 then es
  else
    let line_name := line.name.getD "不明"
    let ls := line_stations_from line_idx idmap 0 line.point
    let dict2 := assocSet es.line_stations_dict line_name (ls.map LineStation.id)
    let es1 := { es with line_stations_dict := dict2 }
    (adjacent_pairs ls).foldl (fun s pr => add_segment line line_name pr.1 pr.2 s) es1

/-- The outer loop of the second pass. -/
noncomputable def edges_lines (idmap : List ((ℕ × ℕ) × String)) :
    ℕ → List RawLine → EdgeState → EdgeState
  | _, [], es => es
  | line_idx, l :: rest, es =>
      edges_lines idmap (line_idx + 1) rest (edges_of_line line_idx l idmap es)

/-- The five return values of `build_network`. -/
structure Network where
  G : List GEdge
  edge_details : List ((String × String) × List (String × EdgeInfo))
  station_coords : List (String × (ℝ × ℝ))
  all_line_names : List String
  line_stations_dict : List (String × List String)

/-- `build_network(map_data)` from src/core_logic.py lines 65-152: the
station-identity first pass followed by the edge-construction second pass.
The `@st.cache_data` decorator only memoises the call; it does not change
the function's value. -/
noncomputable def build_network (map_data : MapData) : Network :=
  let rs := resolve_all map_data.line
  let es := edges_lines rs.station_id_map 0 map_data.line ⟨[], [], []⟩
  ⟨es.G, es.edge_details, rs.station_coords, rs.all_line_names, es.line_stations_dict⟩

/-! ## Route selection (`find_optimal_route`, src/core_logic.py lines 154-194) -/

/-- The nodes of the multigraph (only `add_edge` ever adds nodes, so the
node set is the set of edge endpoints; duplicates are harmless since only
membership is consulted). -/
def graph_nodes (G : List GEdge) : List String :=
  G.map GEdge.u ++ G.map GEdge.v

/-- The neighbours of `s` in the multigraph. -/
def neighbors (G : List GEdge) (s : String) : List String :=
  G.foldr (fun e acc =>
    if e.u == s then e.v :: acc else if e.v == s then e.u :: acc else acc) []

/-- The minimum weight among the parallel edges joining `u` and `v`
(the effective hop cost weighted Dijkstra uses on a multigraph). -/
noncomputable def min_edge_weight (G : List GEdge) (u v : String) : Option ℝ :=
  G.foldr (fun e acc =>
    if (e.u = u ∧ e.v = v) ∨ (e.u = v ∧ e.v = u) then
      match acc with
      | none => some e.weight
      | some w => some (min e.weight w)
    else acc) none

/-- Total weight of a node path (`none` if some hop has no edge). -/
noncomputable def path_weight (G : List GEdge) : List String → Option ℝ
  | u :: v :: rest =>
      match min_edge_weight G u v, path_weight G (v :: rest) with
      | some w, some rw => some (w + rw)
      | _, _ => none
  | _ => some 0

/-- All simple paths from `s` to `t` avoiding `visited`; fuel
`(graph_nodes G).length` covers every simple path. -/
noncomputable def simple_paths (G : List GEdge) (t : String) :
    ℕ → List String → String → List (List String)
  | 0, _, s => if s = t then [[s]] else []
  | fuel + 1, visited, s =>
      if s = t then [[s]]
      else (neighbors G s).foldr (fun n acc =>
          if n ∈ visited ∨ n = s then acc
          else ((simple_paths G t fuel (s :: visited) n).map (fun p => s :: p)) ++ acc) []

/-- A minimum-`path_weight` element of a path list. -/
noncomputable def min_weight_path (G : List GEdge) : List (List String) → Option (List String)
  | [] => none
  | p :: rest =>
      match min_weight_path G rest with
      | none => some p
      | some q =>
          match path_weight G p, path_weight G q with
          | some wp, some wq => if wp ≤ wq then some p else some q
          | some _, none => some p
          | _, _ => some q

/-- Model of `nx.shortest_path(G, source, target, weight='weight')` on an
undirected multigraph with non-negative weights: `NodeNotFound` when the
source is not a node; the single-node path `[source]` when
`source == target`; otherwise a minimum-total-weight simple path (parallel
edges contribute their minimum weight), or `NetworkXNoPath` when the
target is unreachable.  networkx leaves equal-cost tie-breaking
unspecified; this model fixes one choice, and no claim below depends on
tie order. -/
noncomputable def shortest_path (G : List GEdge) (s t : String) : Except String (List String) :=
  if s ∉ graph_nodes G then Except.error "NodeNotFound"
  else if s = t then Except.ok [s]
  else
    match min_weight_path G (simple_paths G t (graph_nodes G).length [] s) with
    | some p => Except.ok p
    | none => Except.error "NetworkXNoPath"

/-- The cost-adjustment loop of `find_optimal_route` (lines 162-170):
avoided lines ×10, prioritised lines ×0.2, otherwise the base weight is
written back unchanged; a line in both sets gets the avoid multiplier
(`elif`). -/
noncomputable def adjust_weight (avoid_lines prioritize_lines : List String)
    (e : GEdge) : GEdge :=
  if e.line_name ∈ avoid_lines then { e with weight := e.weight * 10.0 }
  else if e.line_name ∈ prioritize_lines then { e with weight := e.weight * 0.2 }
  else { e with weight := e.weight }

/-- Whether edge `e` joins some consecutive pair of the path. -/
def edge_on_path (e : GEdge) : List String → Bool
  | u :: v :: rest =>
      (((e.u == u) && (e.v == v)) || ((e.u == v) && (e.v == u))) || edge_on_path e (v :: rest)
  | _ => false

/-- The `avoid_revisit` penalty (lines 177-184): every parallel edge on a
consecutive pair of the outbound path gets its (already adjusted) weight
multiplied by 10000. -/
noncomputable def apply_revisit_penalty (p1 : List String) (G : List GEdge) : List GEdge :=
  G.map (fun e =>
    if edge_on_path e p1 then { e with weight := e.weight * 10000.0 } else e)

/-- `find_optimal_route(G, dept_st, dest_st, via_st, avoid_lines,
prioritize_lines, avoid_revisit)` from src/core_logic.py lines 154-194,
in state-passing form: the first component is the returned value
(`Except.ok none` models the `return None` of the caught
`NetworkXNoPath`; `Except.error` models an uncaught exception such as
`NodeNotFound`), the second the base network after the call — the code
copies `G` into `G_calc` and mutates only the copy, so the base is
returned unchanged. -/
noncomputable def find_optimal_route (G : List GEdge) (dept_st dest_st : String)
    (via_st : Option String) (avoid_lines prioritize_lines : List String)
    (avoid_revisit : Bool) : Except String (Option (List String)) × List GEdge :=
  let G_calc := G.map (adjust_weight avoid_lines prioritize_lines)
  let result : Except String (Option (List String)) :=
    match via_st with
    | some via =>
        match shortest_path G_calc dept_st via with
        | Except.error e => if e = "NetworkXNoPath" then Except.ok none else Except.error e
        | Except.ok p1 =>
            let G_calc2 := if avoid_revisit then apply_revisit_penalty p1 G_calc else G_calc
            match shortest_path G_calc2 via dest_st with
            | Except.error e => if e = "NetworkXNoPath" then Except.ok none else Except.error e
            | Except.ok p2 => Except.ok (some (p1 ++ p2.tail))
    | none =>
        match shortest_path G_calc dept_st dest_st with
        | Except.error e => if e = "NetworkXNoPath" then Except.ok none else Except.error e
        | Except.ok p => Except.ok (some p)
  (result, G)

/-- A one-edge network joining stations A and B over line L. -/
noncomputable def G0 : List GEdge := [⟨"A", "B", "L", 1, "L"⟩]

lemma adjust_weight_u (a p : List String) (e : GEdge) :
    (adjust_weight a p e).u = e.u := by
  unfold adjust_weight
  split_ifs <;> rfl

lemma adjust_weight_v (a p : List String) (e : GEdge) :
    (adjust_weight a p e).v = e.v := by
  unfold adjust_weight
  split_ifs <;> rfl

lemma graph_nodes_adjust (G : List GEdge) (a p : List String) :
    graph_nodes (G.map (adjust_weight a p)) = graph_nodes G := by
  unfold graph_nodes
  rw [List.map_map, List.map_map]
  congr 1
  · exact List.map_congr_left (fun e _ => adjust_weight_u a p e)
  · exact List.map_congr_left (fun e _ => adjust_weight_v a p e)

lemma same_origin_route (G : List GEdge) (dept : String) (avoid prioritize : List String)
    (rev : Bool) (h : dept ∈ graph_nodes G) :
    (find_optimal_route G dept dept none avoid prioritize rev).1 = Except.ok (some [dept]) := by
  have h2 : dept ∈ graph_nodes (G.map (adjust_weight avoid prioritize)) := by
    rw [graph_nodes_adjust]
    exact h
  have hsp : shortest_path (G.map (adjust_weight avoid prioritize)) dept dept =
      Except.ok [dept] := by
    rw [shortest_path, if_neg (not_not_intro h2), if_pos rfl]
  show (match shortest_path (G.map (adjust_weight avoid prioritize)) dept dept with
        | Except.error e => if e = "NetworkXNoPath" then Except.ok none else Except.error e
        | Except.ok p => Except.ok (some p)) = Except.ok (some [dept])
  rw [hsp]

/-- C2 counterexample: on the one-edge network, requesting a route from A
to A with no via-station returns the silently-successful zero-length path
`[A]`, not the no-route signal (`None`) that a disconnected pair gets —
`nx.shortest_path(G, s, s)` returns `[s]` without raising, and
src/core_logic.py has no origin==destination guard. -/
theorem route_same_origin_counterexample :
    (find_optimal_route G0 "A" "A" none [] [] false).1 = Except.ok (some ["A"]) ∧
    (find_optimal_route G0 "A" "A" none [] [] false).1 ≠ Except.ok none := by
  have h : ("A" : String) ∈ graph_nodes G0 := by simp [G0, graph_nodes]
  refine ⟨same_origin_route G0 "A" [] [] false h, ?_⟩
  rw [same_origin_route G0 "A" [] [] false h]
  simp

/-- C2 (amended): for every network containing the origin as a node, a
route request with origin equal to destination and no via-station is
answered with the zero-length single-node path `[origin]` — a silently
successful result, not the no-route condition the disconnected case
produces. -/
theorem route_same_origin_amended (G : List GEdge) (dept : String)
    (avoid prioritize : List String) (rev : Bool) (h : dept ∈ graph_nodes G) :
    (find_optimal_route G dept dept none avoid prioritize rev).1 = Except.ok (some [dept]) ∧
    (find_optimal_route G dept dept none avoid prioritize rev).1 ≠ Except.ok none := by
  refine ⟨same_origin_route G dept avoid prioritize rev h, ?_⟩
  rw [same_origin_route G dept avoid prioritize rev h]
  simp

/-- C2 witness: the amended theorem applied to station B of the one-edge
network. -/
theorem route_same_origin_amended_witness :
    (find_optimal_route G0 "B" "B" none [] [] false).1 = Except.ok (some ["B"]) :=
  (route_same_origin_amended G0 "B" [] [] false (by simp [G0, graph_nodes])).1

/-- The per-edge cost multiplier the claim describes: ×10 for avoided
lines, ×0.2 for prioritised lines, ×1 otherwise. -/
noncomputable def cost_multiplier (avoid_lines prioritize_lines : List String)
    (e : GEdge) : ℝ :=
  if e.line_name ∈ avoid_lines then 10.0
  else if e.line_name ∈ prioritize_lines then 0.2 else 1

/-- C7: route search operates on a costed copy — each edge of the copy is
the base edge with weight multiplied by ×10 (avoid), ×0.2 (prefer) or ×1 —
and the base network handed back after the call is unchanged (the code
copies `G` into `G_calc` and mutates only the copy). -/
theorem find_optimal_route_frame (G : List GEdge) (dept dest : String)
    (via : Option String) (avoid prioritize : List String) (rev : Bool) :
    (find_optimal_route G dept dest via avoid prioritize rev).2 = G ∧
    (∀ e ∈ G, adjust_weight avoid prioritize e =
      { e with weight := e.weight * cost_multiplier avoid prioritize e }) := by
  refine ⟨rfl, ?_⟩
  intro e _
  unfold adjust_weight cost_multiplier
  split_ifs
  · rfl
  · rfl
  · rw [mul_one]

/-- C7 witness: the frame theorem applied to the one-edge network. -/
theorem find_optimal_route_frame_witness :
    (find_optimal_route G0 "A" "B" none [] [] false).2 = G0 ∧
    adjust_weight [] [] (⟨"A", "B", "L", 1, "L"⟩ : GEdge) =
      { (⟨"A", "B", "L", 1, "L"⟩ : GEdge) with
        weight := (⟨"A", "B", "L", 1, "L"⟩ : GEdge).weight *
          cost_multiplier [] [] ⟨"A", "B", "L", 1, "L"⟩ } := by
  have h := find_optimal_route_frame G0 "A" "B" none [] [] false
  exact ⟨h.1, h.2 ⟨"A", "B", "L", 1, "L"⟩ (by simp [G0])⟩

/-- C8: network construction is idempotent and deterministic — two runs of
`build_network` on the same map input produce identical station identity
assignments, identical station coordinates, and identical edge sets with
identical weights.  In the embedding the two-run equality is definitional:
the construction consults no state outside its input (Python dict
iteration is insertion-ordered, and the `@st.cache_data` memoisation does
not change the computed value), so re-running reproduces the output
exactly. -/
theorem build_network_deterministic (m : MapData) :
    (build_network m).station_coords = (build_network m).station_coords ∧
    (build_network m).G = (build_network m).G ∧
    (build_network m).edge_details = (build_network m).edge_details ∧
    (build_network m).all_line_names = (build_network m).all_line_names ∧
    (build_network m).line_stations_dict = (build_network m).line_stations_dict ∧
    (resolve_all m.line).station_id_map = (resolve_all m.line).station_id_map ∧
    build_network m = build_network m :=
  ⟨rfl, rfl, rfl, rfl, rfl, rfl, rfl⟩

/-- Two lines, each contributing one station point with the same raw label
`lbl` — the canonical input for the same-label resolution claim. -/
noncomputable def two_station_input (lbl ln1 ln2 : String) (lat1 lon1 lat2 lon2 : ℝ) :
    List RawLine :=
  [⟨none, some ln1, [⟨lat1, lon1, some "s", some lbl⟩]⟩,
   ⟨none, some ln2, [⟨lat2, lon2, some "s", some lbl⟩]⟩]

lemma append_paren_ne (a b : String) : a ++ " (" ++ b ++ ")" ≠ a := by
  intro h
  have hlen := congrArg String.length h
  rw [String.length_append, String.length_append, String.length_append] at hlen
  have h2 : (" (" : String).length = 2 := rfl
  have h3 : ((")") : String).length = 1 := rfl
  rw [h2, h3] at hlen
  omega

lemma resolve_first_line (lbl ln1 : String) (lat1 lon1 : ℝ) (hlbl : strip_nonempty lbl = true) :
    resolve_line 0 ⟨none, some ln1, [⟨lat1, lon1, some "s", some lbl⟩]⟩ ⟨[], [], [], []⟩ =
      ⟨[(lbl, [⟨lbl, (lat1, lon1)⟩])], [((0, 0), lbl)], [(lbl, (lat1, lon1))], [ln1]⟩ := by
  simp [resolve_line, resolve_points, resolve_point, raw_station_name, hlbl, find_near,
    assocGet, assocSet, minted_id]

lemma resolve_second_near (lbl ln1 ln2 : String) (lat1 lon1 lat2 lon2 : ℝ)
    (hlbl : strip_nonempty lbl = true)
    (hd : hubeny_distance lat2 lon2 lat1 lon1 < SAME_STATION_THRESHOLD) :
    (resolve_line 1 ⟨none, some ln2, [⟨lat2, lon2, some "s", some lbl⟩]⟩
        ⟨[(lbl, [⟨lbl, (lat1, lon1)⟩])], [((0, 0), lbl)],
          [(lbl, (lat1, lon1))], [ln1]⟩).station_id_map
      = [((0, 0), lbl), ((1, 0), lbl)] ∧
    (resolve_line 1 ⟨none, some ln2, [⟨lat2, lon2, some "s", some lbl⟩]⟩
        ⟨[(lbl, [⟨lbl, (lat1, lon1)⟩])], [((0, 0), lbl)],
          [(lbl, (lat1, lon1))], [ln1]⟩).station_coords
      = [(lbl, (lat1, lon1))] := by
  constructor <;>
    simp [resolve_line, resolve_points, resolve_point, raw_station_name, hlbl, find_near,
      assocGet, hd]

lemma resolve_second_far (lbl ln1 ln2 : String) (lat1 lon1 lat2 lon2 : ℝ)
    (hlbl : strip_nonempty lbl = true)
    (hd : ¬ hubeny_distance lat2 lon2 lat1 lon1 < SAME_STATION_THRESHOLD) :
    (resolve_line 1 ⟨none, some ln2, [⟨lat2, lon2, some "s", some lbl⟩]⟩
        ⟨[(lbl, [⟨lbl, (lat1, lon1)⟩])], [((0, 0), lbl)],
          [(lbl, (lat1, lon1))], [ln1]⟩).station_id_map
      = [((0, 0), lbl), ((1, 0), lbl ++ " (" ++ ln2 ++ ")")] ∧
    (resolve_line 1 ⟨none, some ln2, [⟨lat2, lon2, some "s", some lbl⟩]⟩
        ⟨[(lbl, [⟨lbl, (lat1, lon1)⟩])], [((0, 0), lbl)],
          [(lbl, (lat1, lon1))], [ln1]⟩).station_coords
      = [(lbl, (lat1, lon1)), (lbl ++ " (" ++ ln2 ++ ")", (lat2, lon2))] := by
  have hne := append_paren_ne lbl ln2
  constructor <;>
    simp [resolve_line, resolve_points, resolve_point, raw_station_name, hlbl, find_near,
      assocGet, assocSet, hd, minted_id, hne]

lemma resolve_all_two (lbl ln1 ln2 : String) (lat1 lon1 lat2 lon2 : ℝ) :
    resolve_all (two_station_input lbl ln1 ln2 lat1 lon1 lat2 lon2) =
      resolve_line 1 ⟨none, some ln2, [⟨lat2, lon2, some "s", some lbl⟩]⟩
        (resolve_line 0 ⟨none, some ln1, [⟨lat1, lon1, some "s", some lbl⟩]⟩
          ⟨[], [], [], []⟩) := rfl

/-- C4: two station points carrying the same raw label: if their geodesic
distance is below the proximity threshold they resolve to one shared
identity keeping the coordinate of the first occurrence; if at or beyond
the threshold they resolve to two distinct identities, the second minted
with a line-name suffix (the numeric counter only engages on further
collisions with already-minted ids), each identity keeping the coordinate
that established it. -/
theorem station_pair_resolution (lbl ln1 ln2 : String) (lat1 lon1 lat2 lon2 : ℝ)
    (hlbl : strip_nonempty lbl = true) :
    (hubeny_distance lat2 lon2 lat1 lon1 < SAME_STATION_THRESHOLD →
      (resolve_all (two_station_input lbl ln1 ln2 lat1 lon1 lat2 lon2)).station_id_map
          = [((0, 0), lbl), ((1, 0), lbl)] ∧
      (resolve_all (two_station_input lbl ln1 ln2 lat1 lon1 lat2 lon2)).station_coords
          = [(lbl, (lat1, lon1))]) ∧
    (¬ hubeny_distance lat2 lon2 lat1 lon1 < SAME_STATION_THRESHOLD →
      (resolve_all (two_station_input lbl ln1 ln2 lat1 lon1 lat2 lon2)).station_id_map
          = [((0, 0), lbl), ((1, 0), lbl ++ " (" ++ ln2 ++ ")")] ∧
      lbl ++ " (" ++ ln2 ++ ")" ≠ lbl ∧
      (resolve_all (two_station_input lbl ln1 ln2 lat1 lon1 lat2 lon2)).station_coords
          = [(lbl, (lat1, lon1)), (lbl ++ " (" ++ ln2 ++ ")", (lat2, lon2))]) := by
  rw [resolve_all_two, resolve_first_line lbl ln1 lat1 lon1 hlbl]
  constructor
  · intro hd
    exact resolve_second_near lbl ln1 ln2 lat1 lon1 lat2 lon2 hlbl hd
  · intro hd
    obtain ⟨h1, h2⟩ := resolve_second_far lbl ln1 ln2 lat1 lon1 lat2 lon2 hlbl hd
    exact ⟨h1, append_paren_ne lbl ln2, h2⟩

/-- C4 witness: label A on lines L1 and L2, one degree of longitude apart
on the equator (about 111 km, beyond the 1000 m threshold): two distinct
identities, the second suffixed with the line name. -/
theorem station_pair_resolution_witness :
    (resolve_all (two_station_input "A" "L1" "L2" 0 0 0 1)).station_id_map
      = [((0, 0), "A"), ((1, 0), "A" ++ " (" ++ "L2" ++ ")")] := by
  have hfar : ¬ hubeny_distance 0 1 0 0 < SAME_STATION_THRESHOLD := by
    rw [hubeny_equator]
    have h0 : radians 0 = 0 := by simp [radians]
    rw [h0, sub_zero, abs_of_nonneg (by rw [radians]; positivity), radians,
      SAME_STATION_THRESHOLD]
    have hpi := Real.pi_gt_three
    intro hc
    nlinarith
  exact ((station_pair_resolution "A" "L1" "L2" 0 0 0 1 (by decide)).2 hfar).1
